import Mathlib

/-!
Verification development for the aws-runas role discovery engine and
EC2 metadata credential service.

Part 1 (namespace Util) embeds the role discovery engine: the policy-document
role extraction (`parsePolicy`) and the role-set deduplication (`Dedup`).
The Go implementation file of this engine is absent from the repository
snapshot (only its test file `lib/util/role_getter_test.go` is present), so
these definitions are modelled from the specification, with behaviour pinned
to the in-repository tests where the two disagree.

Part 2 (namespace Metadata) embeds the handlers of
`lib/metadata/ec2_metadata_service.go`: the MFA code validation, the profile
selection handler, the error classification for session establishment, the
refresh handler and the assume-role output construction.
-/

namespace Util

/-- JSON values after parsing, the shape Go's `json.Unmarshal` produces into
`map[string]interface\x7b\x7d` / `[]interface\x7b\x7d`. -/
inductive JVal where
| jnull : JVal
| jbool : Bool → JVal
| jnum : Int → JVal
| jstr : String → JVal
| jarr : List JVal → JVal
| jobj : List (String × JVal) → JVal

/-- The double-quote character. -/
def quoteChar : Char := Char.ofNat 34

/-- The opening-brace character. -/
def lbraceChar : Char := Char.ofNat 123

/-- The closing-brace character. -/
def rbraceChar : Char := Char.ofNat 125

/-- Skip JSON whitespace. -/
def skipWs : List Char → List Char
| [] => []
| c :: cs => if c = ' ' ∨ c = '\n' ∨ c = '\t' ∨ c = '\r' then skipWs cs else c :: cs

/-- Read the body of a JSON string after the opening quote; returns the
decoded characters and the remaining input after the closing quote. -/
def parseStrBody : List Char → Option (List Char × List Char)
| [] => none
| c :: cs =>
  if c = quoteChar then some ([], cs)
  else if c = '\\' then
    match cs with
    | [] => none
    | e :: cs2 =>
      let ec : Option Char :=
        if e = quoteChar ∨ e = '\\' ∨ e = '/' then some e
        else if e = 'n' then some '\n'
        else if e = 't' then some '\t'
        else if e = 'r' then some '\r'
        else none
      match ec with
      | none => none
      | some ch =>
        match parseStrBody cs2 with
        | some (s, rest) => some (ch :: s, rest)
        | none => none
  else
    match parseStrBody cs with
    | some (s, rest) => some (c :: s, rest)
    | none => none

/-- Take the leading run of decimal digits. -/
def takeDigits : List Char → (List Char × List Char)
| [] => ([], [])
| c :: cs =>
  if c.isDigit then
    let (d, r) := takeDigits cs
    (c :: d, r)
  else ([], c :: cs)

/-- Decimal digits to a natural number. -/
def digitsToNat (l : List Char) : Nat :=
  l.foldl (fun a c => a * 10 + (c.toNat - 48)) 0

mutual

/-- Fuel-bounded recursive-descent parser for one JSON value. -/
def parseVal : Nat → List Char → Option (JVal × List Char)
| 0, _ => none
| Nat.succ fuel, input =>
  match skipWs input with
  | [] => none
  | c :: cs =>
    if c = quoteChar then
      match parseStrBody cs with
      | some (s, rest) => some (JVal.jstr (String.mk s), rest)
      | none => none
    else if c = lbraceChar then
      match skipWs cs with
      | d :: ds =>
        if d = rbraceChar then some (JVal.jobj [], ds)
        else
          match parseObjItems fuel (d :: ds) with
          | some (ms, rest) => some (JVal.jobj ms, rest)
          | none => none
      | [] => none
    else if c = '[' then
      match skipWs cs with
      | d :: ds =>
        if d = ']' then some (JVal.jarr [], ds)
        else
          match parseArrItems fuel (d :: ds) with
          | some (vs, rest) => some (JVal.jarr vs, rest)
          | none => none
      | [] => none
    else if c = 't' then
      match cs with
      | 'r' :: 'u' :: 'e' :: rest => some (JVal.jbool true, rest)
      | _ => none
    else if c = 'f' then
      match cs with
      | 'a' :: 'l' :: 's' :: 'e' :: rest => some (JVal.jbool false, rest)
      | _ => none
    else if c = 'n' then
      match cs with
      | 'u' :: 'l' :: 'l' :: rest => some (JVal.jnull, rest)
      | _ => none
    else if c = '-' then
      match takeDigits cs with
      | ([], _) => none
      | (ds, rest) => some (JVal.jnum (-(Int.ofNat (digitsToNat ds))), rest)
    else if c.isDigit then
      match takeDigits (c :: cs) with
      | (ds, rest) => some (JVal.jnum (Int.ofNat (digitsToNat ds)), rest)
    else none

/-- Fuel-bounded parser for the items of a JSON array, positioned at the
first item (the empty array is handled by the caller). -/
def parseArrItems : Nat → List Char → Option (List JVal × List Char)
| 0, _ => none
| Nat.succ fuel, input =>
  match parseVal fuel input with
  | none => none
  | some (v, rest) =>
    match skipWs rest with
    | c :: cs =>
      if c = ',' then
        match parseArrItems fuel cs with
        | some (vs, rest2) => some (v :: vs, rest2)
        | none => none
      else if c = ']' then some ([v], cs)
      else none
    | [] => none

/-- Fuel-bounded parser for the members of a JSON object, positioned at the
first member (the empty object is handled by the caller). -/
def parseObjItems : Nat → List Char → Option (List (String × JVal) × List Char)
| 0, _ => none
| Nat.succ fuel, input =>
  match skipWs input with
  | c :: cs =>
    if c = quoteChar then
      match parseStrBody cs with
      | some (k, rest) =>
        match skipWs rest with
        | d :: ds =>
          if d = ':' then
            match parseVal fuel ds with
            | some (v, rest2) =>
              match skipWs rest2 with
              | e :: es =>
                if e = ',' then
                  match parseObjItems fuel es with
                  | some (ms, rest3) => some ((String.mk k, v) :: ms, rest3)
                  | none => none
                else if e = rbraceChar then some ([(String.mk k, v)], es)
                else none
              | [] => none
            | none => none
          else none
        | [] => none
      | none => none
    else none
  | [] => none

end

/-- Parse a whole JSON document; `none` when the text is not valid JSON. -/
def jsonParse (s : String) : Option JVal :=
  match parseVal (s.data.length + 16) s.data with
  | some (v, rest) => if (skipWs rest).isEmpty then some v else none
  | none => none

/-- First value bound to key `k` in an object's member list. -/
def lookupField : List (String × JVal) → String → Option JVal
| [], _ => none
| (k2, v) :: rest, k => if k2 = k then some v else lookupField rest k

/-- Whether a JSON value is exactly the string `sts:AssumeRole`. -/
def isAssumeRoleLit : JVal → Bool
| JVal.jstr a => a = "sts:AssumeRole"
| _ => false

/-- Modelled from the spec: whether a statement's `Action` field (a string or
a list) equals or contains the literal `sts:AssumeRole`. The Go
implementation (`lib/util/role_getter.go`) is absent from the snapshot. -/
def actionMatches : JVal → Bool
| JVal.jstr a => a = "sts:AssumeRole"
| JVal.jarr l => l.any isAssumeRoleLit
| _ => false

/-- Modelled from the spec: flatten a statement's `Resource` field (a single
string or an array of strings) into a list of role references. -/
def resourceValues : JVal → List String
| JVal.jstr r => [r]
| JVal.jarr l =>
  l.foldr
    (fun v acc =>
      match v with
      | JVal.jstr s => s :: acc
      | _ => acc)
    []
| _ => []

/-- Modelled from the spec: the role references contributed by one policy
statement. Non-object statements and statements whose `Effect` is not the
string `Allow`, or whose `Action` does not name `sts:AssumeRole`, contribute
nothing. -/
def stmtRoles (st : JVal) : List String :=
  match st with
  | JVal.jobj fields =>
    match lookupField fields "Effect" with
    | some (JVal.jstr e) =>
      if e = "Allow" then
        match lookupField fields "Action" with
        | some a =>
          if actionMatches a then
            match lookupField fields "Resource" with
            | some r => resourceValues r
            | none => []
          else []
        | none => []
      else []
    | _ => []
  | _ => []

/-- Modelled from the spec: the list of statements of a parsed policy
document; anything other than an object with a `Statement` array yields the
empty list. -/
def docStatements : Option JVal → List JVal
| some (JVal.jobj fields) =>
  match lookupField fields "Statement" with
  | some (JVal.jarr l) => l
  | _ => []
| _ => []

/-- Modelled from the spec: accumulate the contributions of every statement
of a parsed policy document. -/
def extractRoles (j : Option JVal) : List String :=
  (docStatements j).foldr (fun st acc => stmtRoles st ++ acc) []

/-- Lexicographic less-or-equal on character lists, the order `sort.Strings`
uses (UTF-8 byte order coincides with code-point order). -/
def charListLe : List Char → List Char → Bool
| [], _ => true
| _ :: _, [] => false
| a :: as, b :: bs => if a = b then charListLe as bs else decide (a < b)

/-- Lexicographic less-or-equal on strings, as a relation. -/
def strLeP (a b : String) : Prop := charListLe a.data b.data = true

instance : DecidableRel strLeP := fun a b =>
  show Decidable (charListLe a.data b.data = true) from inferInstance

/-- Modelled from the spec: deduplicate a role list and sort it ascending
lexically (`Roles.Dedup` of the absent `lib/util/role_getter.go`). -/
def Dedup (l : List String) : List String :=
  (l.dedup).insertionSort strLeP

/-- Modelled from the spec: `parsePolicy` of the absent
`lib/util/role_getter.go`. A missing (nil) document is an error. Any other
document is parsed as JSON and its statements' contributions are collected,
deduplicated and sorted; the in-repository test `TestParsePolicy` pins that a
document failing to parse as JSON degrades to an empty role set without
error. -/
def parsePolicy : Option String → Except String (List String)
| none => Except.error "nil policy document"
| some d => Except.ok (Dedup (extractRoles (jsonParse d)))

/-- The spec's statement-contribution condition, stated directly from its
words: the `Effect` field is the string `Allow` and the `Action` field
equals, or is an array containing, the string `sts:AssumeRole`. -/
def specAllowAssume (fields : List (String × JVal)) : Prop :=
  lookupField fields "Effect" = some (JVal.jstr "Allow") ∧
  (lookupField fields "Action" = some (JVal.jstr "sts:AssumeRole") ∨
    ∃ l, lookupField fields "Action" = some (JVal.jarr l) ∧
      JVal.jstr "sts:AssumeRole" ∈ l)

/-- A statement's flattened `Resource` values, stated from the spec's words:
a single string or an array of strings, flattened; anything else (or an
absent field) contributes nothing. -/
def specResources (fields : List (String × JVal)) : List String :=
  match lookupField fields "Resource" with
  | some r => resourceValues r
  | none => []

/-- The five-statement policy document of the spec's testable property and of
the in-repository test `TestParsePolicy` (subtest `good`). -/
def goodPolicyDoc : String :=
  "\x7b\"Statement\": [\x7b\"Effect\": \"None\"\x7d, \x7b\"Effect\": \"Deny\", \"Action\": \"sts:AssumeRole\"\x7d, \x7b\"Effect\": \"Allow\", \"Action\": [\"sts:AssumeRole\", \"s3:*\"], \"Resource\": \"a\"\x7d, \x7b\"Effect\": \"Allow\", \"Action\": \"sts:AssumeRole\", \"Resource\": \"x\"\x7d, \x7b\"Effect\": \"Allow\", \"Action\": \"sts:AssumeRole\", \"Resource\": [\"y\", \"z\"]\x7d]\x7d"

/-- The bare-strings statement document of test `TestParsePolicy` (subtest
`string array`). -/
def strArrayPolicyDoc : String :=
  "\x7b\"Statement\": [\"a\", \"b\", \"c\"]\x7d"

/-- The missing-fields statement document of test `TestParsePolicy` (subtest
`bad map`). -/
def badMapPolicyDoc : String :=
  "\x7b\"Statement\": [\x7b\x7d, \x7b\"b\": 1\x7d]\x7d"

end Util

namespace Metadata

/-- The fields of `config.AwsConfig` used by the metadata service. -/
structure AwsConfig where
  SourceProfile : String
  RoleArn : String
  MfaSerial : String
  ExternalID : String
  SessionDuration : Nat
deriving Repr, DecidableEq

/-- `handlerError`: an error message together with an HTTP status code. -/
structure HandlerError where
  msg : String
  code : Nat
deriving Repr, DecidableEq

/-- An HTTP response as the status and body sent by `writeResponse`. -/
structure HttpResponse where
  status : Nat
  body : String
deriving Repr, DecidableEq

/-- `writeResponse`: status codes below 100 are replaced by 200 OK. -/
def writeResponse (body : String) (code : Nat) : HttpResponse :=
  if code < 100 then ⟨200, body⟩ else ⟨code, body⟩

/-- A bounded `Read` into an `n`-byte buffer: the first `n` characters. -/
def readBody (s : String) (n : Nat) : String :=
  String.mk (s.data.take n)

/-- `getMfa`: read at most 64 bytes of the body; fewer than 6 bytes is the
invalid-code condition (HTTP 401); otherwise the code is the first 6 bytes.
`none` stands for a nil body reader. -/
def getMfa : Option String → Except HandlerError String
| none => Except.error ⟨"nil reader", 500⟩
| some body =>
  let b := readBody body 64
  if b.length < 6 then Except.error ⟨"Invalid MFA Code", 401⟩
  else Except.ok (readBody b 6)

/-- The ways `cred.Get()` fails: the distinguished `ErrMfaRequired` signal,
an AWS error with an error code and message, or any other error. -/
inductive SessionError where
| mfaRequired : SessionError
| awsError : String → String → SessionError
| otherError : String → SessionError
deriving Repr, DecidableEq

/-- `mfaHandler`: validate the submitted code with `getMfa`, then ask the
identity provider for session credentials. The Boolean of the result records
whether the provider was called; on success the body is the credential
expiration instant. -/
def mfaHandler (provider : String → Except SessionError Nat)
    (body : Option String) : HttpResponse × Bool :=
  match getMfa body with
  | Except.error e => (writeResponse e.msg e.code, false)
  | Except.ok mfa =>
    match provider mfa with
    | Except.error _ => (writeResponse "Error getting session credentials" 500, true)
    | Except.ok t => (writeResponse (toString t) 200, true)

/-- The classification of a failed `cred.Get()` in `profileHandler`:
`ErrMfaRequired`, and `AccessDenied` AWS errors whose message starts with
the known MFA-failure pattern, map to 401 with a re-prompt message; every
other error maps to 500 with a generic message. -/
def classifySessionError : SessionError → HttpResponse
| SessionError.mfaRequired => writeResponse "MFA code required" 401
| SessionError.awsError c m =>
  if c = "AccessDenied" ∧ m.startsWith "MultiFactorAuthentication failed" = true
  then writeResponse "MFA code required" 401
  else writeResponse "Error getting session credentials" 500
| SessionError.otherError _ => writeResponse "Error getting session credentials" 500

/-- The process-wide state the profile handler touches: the active profile
name, the active role configuration, and a counter standing for the identity
of the AWS client session object (`updateSession` replaces that object, so
the counter increments exactly when `updateSession` runs). -/
structure ProfileState where
  profile : String
  role : Option AwsConfig
  sessionGen : Nat
deriving Repr, DecidableEq

/-- `sendProfile`: answer with the active profile name. -/
def sendProfile (st : ProfileState) : HttpResponse :=
  writeResponse st.profile 200

/-- `getProfileConfig`: read up to 4096 bytes of the body as the profile
name, store it in the process-wide `profile` variable, then resolve the
configuration. Returns the new value of `profile` with the result; a nil
reader leaves `profile` unchanged. -/
def getProfileConfig (resolver : String → Except String AwsConfig)
    (body : Option String) (profile : String) :
    String × Except HandlerError AwsConfig :=
  match body with
  | none => (profile, Except.error ⟨"nil reader", 500⟩)
  | some s =>
    let p := readBody s 4096
    match resolver p with
    | Except.error _ => (p, Except.error ⟨"Error resolving profile config", 500⟩)
    | Except.ok c => (p, Except.ok c)

/-- The outcome of a POST to `/profile`: the new process-wide state, the
response, and whether `updateSession` was invoked. -/
structure ProfileOutput where
  state : ProfileState
  response : HttpResponse
  updateSessionCalled : Bool
deriving Repr, DecidableEq

/-- The condition of `role == nil || p.SourceProfile != role.SourceProfile`
in `profileHandler`: `updateSession` runs when no configuration is active or
the newly resolved source profile differs from the active one. -/
def needsSessionUpdate (role : Option AwsConfig) (p : AwsConfig) : Bool :=
  match role with
  | none => true
  | some r => p.SourceProfile != r.SourceProfile

/-- POST `/profile` (`profileHandler`, POST branch): resolve the
configuration named by the body; invoke `updateSession` exactly when no
configuration is active or the resolved source profile differs from the
active one; install the new configuration and request session credentials.
`sessionResult` stands for the outcome of `cred.Get()`; failures are
classified by `classifySessionError`. -/
def profileHandlerPost (resolver : String → Except String AwsConfig)
    (sessionResult : Except SessionError Nat)
    (st : ProfileState) (body : Option String) : ProfileOutput :=
  match getProfileConfig resolver body st.profile with
  | (profile2, Except.error e) =>
    { state := { st with profile := profile2 }
      response := writeResponse e.msg e.code
      updateSessionCalled := false }
  | (profile2, Except.ok p) =>
    let callUpdate : Bool := needsSessionUpdate st.role p
    let st2 : ProfileState :=
      { profile := profile2
        role := some p
        sessionGen := if callUpdate then st.sessionGen + 1 else st.sessionGen }
    match sessionResult with
    | Except.error e =>
      { state := st2, response := classifySessionError e, updateSessionCalled := callUpdate }
    | Except.ok t =>
      { state := st2, response := writeResponse (toString t) 200, updateSessionCalled := callUpdate }

/-- `profileHandler`: POST selects a profile; any other method reports the
active profile name and touches nothing. -/
def profileHandler (resolver : String → Except String AwsConfig)
    (sessionResult : Except SessionError Nat) (method : String)
    (st : ProfileState) (body : Option String) : ProfileOutput :=
  if method = "POST" then profileHandlerPost resolver sessionResult st body
  else { state := st, response := sendProfile st, updateSessionCalled := false }

/-- A session credential object; `Expire` marks it expired in memory. -/
structure Credential where
  expired : Bool
deriving Repr, DecidableEq

/-- `Credentials.Expire`. -/
def expireCred (c : Credential) : Credential :=
  { c with expired := true }

/-- `cacheFile`: the session cache path for a source profile; empty when no
cache directory is configured or the profile name is empty. -/
def cacheFile (cacheDir p : String) : String :=
  if 0 < cacheDir.length ∧ 0 < p.length
  then cacheDir ++ "/.aws_session_token_" ++ p
  else ""

/-- The process-wide state the refresh handler touches, together with the
set of existing cache files standing for the filesystem. -/
structure ServerState where
  role : Option AwsConfig
  cred : Option Credential
  cacheDir : String
  files : List String
deriving Repr, DecidableEq

/-- `refreshHandler`: on POST with an active credential object, expire the
credential in memory and delete the active role's session cache file (when a
cache path exists; a failed delete is ignored); always answer 200
`success`. -/
def refreshHandler (method : String) (st : ServerState) :
    ServerState × HttpResponse :=
  let st2 :=
    if method = "POST" ∧ st.cred.isSome = true then
      let st1 : ServerState := { st with cred := st.cred.map expireCred }
      match st.role with
      | some r =>
        let cf := cacheFile st.cacheDir r.SourceProfile
        if 0 < cf.length then { st1 with files := st1.files.filter (fun f => f != cf) }
        else st1
      | none => st1
    else st
  (st2, writeResponse "success" 200)

/-- The credential value the assume-role provider returns, with the
expiration the identity provider really granted. -/
structure CredValue where
  AccessKeyID : String
  SecretAccessKey : String
  SessionToken : String
  expiration : Nat
deriving Repr, DecidableEq

/-- The fixed JSON shape of the credential-fetch response
(`ec2MetadataOutput`); instants are modelled in seconds. -/
structure Ec2MetadataOutput where
  Code : String
  LastUpdated : Nat
  Type' : String
  AccessKeyId : String
  SecretAccessKey : String
  Token : String
  Expiration : Nat
deriving Repr, DecidableEq

/-- `assumeRole`: derive role credentials from the provider's result. The
reported `Expiration` is `now + minDuration + 1` second, where `minDuration`
stands for `credlib.AssumeRoleMinDuration`; the provider's own expiration is
not consulted. -/
def assumeRole (now minDuration : Nat)
    (getResult : Except String CredValue) : Except String Ec2MetadataOutput :=
  match getResult with
  | Except.error e => Except.error e
  | Except.ok v =>
    Except.ok
      { Code := "Success"
        LastUpdated := now
        Type' := "AWS-HMAC"
        AccessKeyId := v.AccessKeyID
        SecretAccessKey := v.SecretAccessKey
        Token := v.SessionToken
        Expiration := now + minDuration + 1 }

end Metadata

namespace Util

theorem charListLe_total : ∀ a b : List Char,
    charListLe a b = true ∨ charListLe b a = true
| [], _ => Or.inl rfl
| _ :: _, [] => Or.inr rfl
| a :: as, b :: bs => by
  by_cases h : a = b
  · subst h
    have ih := charListLe_total as bs
    simpa [charListLe] using ih
  · rcases lt_or_gt_of_ne h with hlt | hgt
    · left
      simp [charListLe, h, hlt]
    · right
      have h' : ¬ b = a := fun e => h e.symm
      simp [charListLe, h', hgt]

theorem charListLe_trans : ∀ a b c : List Char,
    charListLe a b = true → charListLe b c = true → charListLe a c = true
| [], _, _ => fun _ _ => rfl
| _ :: _, [], _ => fun h _ => by simp [charListLe] at h
| _ :: _, _ :: _, [] => fun _ h => by simp [charListLe] at h
| a :: as, b :: bs, c :: cs => fun h1 h2 => by
  by_cases hab : a = b <;> by_cases hbc : b = c
  · subst hab; subst hbc
    simp only [charListLe, if_pos rfl] at h1 h2 ⊢
    exact charListLe_trans as bs cs h1 h2
  · subst hab
    have hac : a < c := by
      simp only [charListLe, if_neg hbc, decide_eq_true_eq] at h2
      exact h2
    simp [charListLe, hbc, hac]
  · subst hbc
    have hac : a < b := by
      simp only [charListLe, if_neg hab, decide_eq_true_eq] at h1
      exact h1
    simp [charListLe, hab, hac]
  · have h1' : a < b := by
      simp only [charListLe, if_neg hab, decide_eq_true_eq] at h1
      exact h1
    have h2' : b < c := by
      simp only [charListLe, if_neg hbc, decide_eq_true_eq] at h2
      exact h2
    have hac : a < c := lt_trans h1' h2'
    have hne : ¬ a = c := ne_of_lt hac
    simp [charListLe, hne, hac]

theorem isAssumeRoleLit_eq_true_iff (v : JVal) :
    isAssumeRoleLit v = true ↔ v = JVal.jstr "sts:AssumeRole" := by
  cases v <;> simp [isAssumeRoleLit]

theorem actionMatches_eq_true_iff (a : JVal) :
    actionMatches a = true ↔
      (a = JVal.jstr "sts:AssumeRole" ∨
        ∃ l, a = JVal.jarr l ∧ JVal.jstr "sts:AssumeRole" ∈ l) := by
  cases a <;>
    simp [actionMatches, List.any_eq_true, isAssumeRoleLit_eq_true_iff]

theorem stmtRoles_of_allowAssume (fields : List (String × JVal))
    (h : specAllowAssume fields) :
    stmtRoles (JVal.jobj fields) = specResources fields := by
  obtain ⟨hEff, hAct⟩ := h
  obtain ⟨a, hA1, hA2⟩ :
      ∃ a, lookupField fields "Action" = some a ∧ actionMatches a = true := by
    rcases hAct with h1 | ⟨l, h1, h2⟩
    · exact ⟨_, h1, by simp [actionMatches]⟩
    · refine ⟨_, h1, ?_⟩
      simp only [actionMatches, List.any_eq_true]
      exact ⟨_, h2, by simp [isAssumeRoleLit]⟩
  simp [stmtRoles, hEff, hA1, hA2, specResources]

theorem stmtRoles_of_not_allowAssume (fields : List (String × JVal))
    (h : ¬ specAllowAssume fields) :
    stmtRoles (JVal.jobj fields) = [] := by
  cases hEff : lookupField fields "Effect" with
  | none => simp [stmtRoles, hEff]
  | some v =>
    cases v with
    | jstr e =>
      by_cases he : e = "Allow"
      · subst he
        cases hAct : lookupField fields "Action" with
        | none => simp [stmtRoles, hEff, hAct]
        | some a =>
          have hm : actionMatches a = false := by
            cases ha : actionMatches a with
            | false => rfl
            | true =>
              exfalso
              apply h
              refine ⟨hEff, ?_⟩
              rcases (actionMatches_eq_true_iff a).mp ha with h1 | ⟨l, h1, h2⟩
              · subst h1
                exact Or.inl hAct
              · subst h1
                exact Or.inr ⟨l, hAct, h2⟩
          simp [stmtRoles, hEff, hAct, hm]
      · simp [stmtRoles, hEff, he]
    | jnull => simp [stmtRoles, hEff]
    | jbool b => simp [stmtRoles, hEff]
    | jnum n => simp [stmtRoles, hEff]
    | jarr l => simp [stmtRoles, hEff]
    | jobj o => simp [stmtRoles, hEff]

end Util

namespace Metadata

theorem filter_twice {α : Type} (p : α → Bool) (l : List α) :
    (l.filter p).filter p = l.filter p := by
  induction l with
  | nil => rfl
  | cons a t ih =>
    by_cases h : p a = true
    · simp [List.filter_cons, h, ih]
    · simp [List.filter_cons, h, ih]

theorem expireCred_idem (c : Credential) :
    expireCred (expireCred c) = expireCred c := rfl

theorem needsSessionUpdate_eq_false_iff (role : Option AwsConfig) (p : AwsConfig) :
    needsSessionUpdate role p = false ↔
      ∃ r, role = some r ∧ p.SourceProfile = r.SourceProfile := by
  cases role with
  | none => simp [needsSessionUpdate]
  | some r => simp [needsSessionUpdate]

theorem needsSessionUpdate_eq_true_iff (role : Option AwsConfig) (p : AwsConfig) :
    needsSessionUpdate role p = true ↔
      (role = none ∨ ∃ r, role = some r ∧ p.SourceProfile ≠ r.SourceProfile) := by
  cases role with
  | none => simp [needsSessionUpdate]
  | some r => simp [needsSessionUpdate]

end Metadata
/-- C1: for every successful role-credential derivation by `assumeRole`, the
`Expiration` reported in the credential-fetch output equals
`now + minDuration + 1` second — hence is strictly greater than
`now + minDuration` — for every credential value the provider returns,
whatever expiration that value carries. -/
theorem C1_assumeRole_expiration (now minDuration : Nat)
    (v : Metadata.CredValue) (o : Metadata.Ec2MetadataOutput)
    (h : Metadata.assumeRole now minDuration (Except.ok v) = Except.ok o) :
    o.Expiration = now + minDuration + 1 ∧ now + minDuration < o.Expiration := by
  simp only [Metadata.assumeRole, Except.ok.injEq] at h
  subst h
  exact ⟨rfl, Nat.lt_succ_self (now + minDuration)⟩

/-- Witness for C1 at `now = 100`, `minDuration = 900` and a concrete
provider credential value. -/
theorem C1_assumeRole_expiration_witness :
    ({ Code := "Success", LastUpdated := 100, Type' := "AWS-HMAC",
       AccessKeyId := "AK", SecretAccessKey := "SK", Token := "TK",
       Expiration := 1001 } : Metadata.Ec2MetadataOutput).Expiration =
        100 + 900 + 1 ∧
      100 + 900 <
        ({ Code := "Success", LastUpdated := 100, Type' := "AWS-HMAC",
           AccessKeyId := "AK", SecretAccessKey := "SK", Token := "TK",
           Expiration := 1001 } : Metadata.Ec2MetadataOutput).Expiration :=
  C1_assumeRole_expiration 100 900
    { AccessKeyID := "AK", SecretAccessKey := "SK", SessionToken := "TK",
      expiration := 7 }
    { Code := "Success", LastUpdated := 100, Type' := "AWS-HMAC",
      AccessKeyId := "AK", SecretAccessKey := "SK", Token := "TK",
      Expiration := 1001 }
    rfl

/-- C2: for every input list of role references (the empty list, which also
stands for a nil slice, included) `Dedup` returns the distinct elements of
the input in ascending lexical order with no error; on the six-element
example it returns the four distinct roles sorted, and on the empty list it
returns the empty list. -/
theorem C2_dedup_sorted_distinct :
    (∀ l : List String,
        List.Sorted Util.strLeP (Util.Dedup l) ∧ (Util.Dedup l).Nodup ∧
        (∀ x, x ∈ Util.Dedup l ↔ x ∈ l)) ∧
    Util.Dedup ["mock3", "mock2", "mock1", "mock2", "mock4", "mock1"] =
      ["mock1", "mock2", "mock3", "mock4"] ∧
    Util.Dedup [] = [] := by
  refine ⟨fun l => ⟨?_, ?_, ?_⟩, by decide, rfl⟩
  · exact @List.sorted_insertionSort String Util.strLeP _
      ⟨fun a b => Util.charListLe_total a.data b.data⟩
      ⟨fun a b c => Util.charListLe_trans a.data b.data c.data⟩ l.dedup
  · exact ((List.perm_insertionSort _ _).nodup_iff).mpr (List.nodup_dedup l)
  · intro x
    simp only [Util.Dedup]
    rw [(List.perm_insertionSort _ _).mem_iff, List.mem_dedup]

set_option maxRecDepth 100000 in
/-- C3: a policy statement contributes exactly its flattened `Resource`
values when its `Effect` is `Allow` and its `Action` equals or contains
`sts:AssumeRole`, and contributes nothing otherwise (statements with `Deny`
or `None` effects in particular); on the spec's five-statement example
document the extracted role set is `a`, `x`, `y`, `z`. -/
theorem C3_statement_contribution :
    (∀ fields, Util.specAllowAssume fields →
        Util.stmtRoles (Util.JVal.jobj fields) = Util.specResources fields) ∧
    (∀ fields, ¬ Util.specAllowAssume fields →
        Util.stmtRoles (Util.JVal.jobj fields) = []) ∧
    Util.parsePolicy (some Util.goodPolicyDoc) =
      Except.ok ["a", "x", "y", "z"] :=
  ⟨Util.stmtRoles_of_allowAssume, Util.stmtRoles_of_not_allowAssume, by rfl⟩

/-- Witness for C3: an `Allow` + `sts:AssumeRole` statement contributes its
resource, a `Deny` statement contributes nothing. -/
theorem C3_statement_contribution_witness :
    Util.stmtRoles (Util.JVal.jobj
        [("Effect", Util.JVal.jstr "Allow"),
         ("Action", Util.JVal.jstr "sts:AssumeRole"),
         ("Resource", Util.JVal.jstr "x")]) =
      Util.specResources
        [("Effect", Util.JVal.jstr "Allow"),
         ("Action", Util.JVal.jstr "sts:AssumeRole"),
         ("Resource", Util.JVal.jstr "x")] ∧
    Util.stmtRoles (Util.JVal.jobj
        [("Effect", Util.JVal.jstr "Deny"),
         ("Action", Util.JVal.jstr "sts:AssumeRole")]) = [] :=
  ⟨C3_statement_contribution.1 _ ⟨rfl, Or.inl rfl⟩,
   C3_statement_contribution.2.1 _
     (fun hc => by simp [Util.specAllowAssume, Util.lookupField] at hc)⟩

/-- C4 counterexample: the document `string-only` fails to parse as JSON,
yet `parsePolicy` returns an empty role set without error — so "error if
the document fails to parse as JSON" does not hold of the code pinned by
`TestParsePolicy`. -/
theorem C4_counterexample_invalid_doc_no_error :
    Util.jsonParse "string-only" = none ∧
    Util.parsePolicy (some "string-only") = Except.ok [] :=
  ⟨rfl, rfl⟩

/-- C4 (amended): `parsePolicy` returns an error exactly when the document
is missing (nil); the empty document, a syntactically invalid document and
structurally odd documents (bare-string statements, objects missing the
required fields) all yield an empty role set with no error. -/
theorem C4_error_iff_nil_document :
    (∀ d : Option String,
        (∃ e, Util.parsePolicy d = Except.error e) ↔ d = none) ∧
    Util.parsePolicy (some "") = Except.ok [] ∧
    Util.parsePolicy (some "string-only") = Except.ok [] ∧
    Util.parsePolicy (some Util.strArrayPolicyDoc) = Except.ok [] ∧
    Util.parsePolicy (some Util.badMapPolicyDoc) = Except.ok [] := by
  refine ⟨?_, rfl, rfl, rfl, rfl⟩
  intro d
  cases d with
  | none =>
    exact ⟨fun _ => rfl, fun _ => ⟨"nil policy document", rfl⟩⟩
  | some s =>
    constructor
    · rintro ⟨e, he⟩
      simp [Util.parsePolicy] at he
    · intro h
      cases h
/-- C5: every MFA submission whose body is shorter than 6 bytes is rejected
by the MFA handler with the invalid-code condition as HTTP 401, and the
identity provider is not called for that request. -/
theorem C5_short_mfa_rejected
    (provider : String → Except Metadata.SessionError Nat)
    (s : String) (h : s.length < 6) :
    Metadata.mfaHandler provider (some s) = (⟨401, "Invalid MFA Code"⟩, false) := by
  have h64 : (Metadata.readBody s 64).length = min 64 s.length := by
    show (s.data.take 64).length = min 64 s.length
    rw [List.length_take]
    rfl
  have hb : (Metadata.readBody s 64).length < 6 := by
    omega
  simp [Metadata.mfaHandler, Metadata.getMfa, hb, Metadata.writeResponse]

/-- Witness for C5 on the three-byte submission `123`. -/
theorem C5_short_mfa_rejected_witness :
    Metadata.mfaHandler (fun _ => Except.ok 0) (some "123") =
      (⟨401, "Invalid MFA Code"⟩, false) :=
  C5_short_mfa_rejected (fun _ => Except.ok 0) "123" (by decide)

/-- C6: a failed session establishment on POST `/profile` is answered 401
`MFA code required` exactly for the explicit MFA-required signal or an
`AccessDenied` error whose message starts with
`MultiFactorAuthentication failed`; every other error is answered 500 with
the fixed generic message, so the response body is always one of the two
fixed strings and never carries the provider's error detail; and on a
session failure the profile handler's response is exactly this
classification. -/
theorem C6_session_error_classification :
    (∀ e : Metadata.SessionError,
        Metadata.classifySessionError e = ⟨401, "MFA code required"⟩ ↔
          (e = Metadata.SessionError.mfaRequired ∨
            ∃ m, e = Metadata.SessionError.awsError "AccessDenied" m ∧
              m.startsWith "MultiFactorAuthentication failed" = true)) ∧
    (∀ e : Metadata.SessionError,
        Metadata.classifySessionError e = ⟨401, "MFA code required"⟩ ∨
          Metadata.classifySessionError e =
            ⟨500, "Error getting session credentials"⟩) ∧
    (∀ (resolver : String → Except String Metadata.AwsConfig)
        (st : Metadata.ProfileState) (s : String) (p : Metadata.AwsConfig)
        (e : Metadata.SessionError),
        resolver (Metadata.readBody s 4096) = Except.ok p →
        (Metadata.profileHandlerPost resolver (Except.error e) st (some s)).response =
          Metadata.classifySessionError e) := by
  refine ⟨?_, ?_, ?_⟩
  · intro e
    cases e with
    | mfaRequired =>
      simp [Metadata.classifySessionError, Metadata.writeResponse]
    | awsError c m =>
      by_cases hcm : c = "AccessDenied" ∧
          m.startsWith "MultiFactorAuthentication failed" = true
      · have hcls : Metadata.classifySessionError
            (Metadata.SessionError.awsError c m) = ⟨401, "MFA code required"⟩ := by
          simp only [Metadata.classifySessionError]
          rw [if_pos hcm]
          rfl
        exact iff_of_true hcls (Or.inr ⟨m, by rw [hcm.1], hcm.2⟩)
      · have hcls : Metadata.classifySessionError
            (Metadata.SessionError.awsError c m) =
              ⟨500, "Error getting session credentials"⟩ := by
          simp only [Metadata.classifySessionError]
          rw [if_neg hcm]
          rfl
        rw [hcls]
        constructor
        · intro hfalse
          simp at hfalse
        · rintro (hsh | ⟨m2, hm2, hs2⟩)
          · cases hsh
          · exfalso
            injection hm2 with e1 e2
            subst e1
            subst e2
            exact hcm ⟨rfl, hs2⟩
    | otherError m =>
      simp [Metadata.classifySessionError, Metadata.writeResponse]
  · intro e
    cases e with
    | mfaRequired => exact Or.inl rfl
    | otherError m => exact Or.inr rfl
    | awsError c m =>
      by_cases hcm : c = "AccessDenied" ∧
          m.startsWith "MultiFactorAuthentication failed" = true
      · left
        simp only [Metadata.classifySessionError]
        rw [if_pos hcm]
        rfl
      · right
        simp only [Metadata.classifySessionError]
        rw [if_neg hcm]
        rfl
  · intro resolver st s p e h
    simp [Metadata.profileHandlerPost, Metadata.getProfileConfig, h]

/-- Witness for C6: on an MFA-required failure with a resolving profile, the
handler answers with the classification of that failure. -/
theorem C6_session_error_classification_witness :
    (Metadata.profileHandlerPost
        (fun _ => Except.ok
          { SourceProfile := "dev", RoleArn := "arn", MfaSerial := "",
            ExternalID := "", SessionDuration := 0 })
        (Except.error Metadata.SessionError.mfaRequired)
        { profile := "old", role := none, sessionGen := 0 }
        (some "dev")).response =
      Metadata.classifySessionError Metadata.SessionError.mfaRequired :=
  C6_session_error_classification.2.2 _ _ _ _ _ rfl

/-- C7: every request to `/refresh` is answered 200 `success`; every POST
with an active credential expires the in-memory credential — whether or not
a role or a cache path exists — and deletes the active role's cache file
from the filesystem when a cache path exists; and the handler is
idempotent — running it again from the resulting state changes nothing
further. -/
theorem C7_refresh_success_expire_idempotent :
    (∀ m st, (Metadata.refreshHandler m st).2 = ⟨200, "success"⟩) ∧
    (∀ (st : Metadata.ServerState) c, st.cred = some c →
        (Metadata.refreshHandler "POST" st).1.cred =
          some (Metadata.expireCred c)) ∧
    (∀ (st : Metadata.ServerState) c r, st.cred = some c → st.role = some r →
        0 < (Metadata.cacheFile st.cacheDir r.SourceProfile).length →
        (Metadata.refreshHandler "POST" st).1.files =
          st.files.filter
            (fun f => f != Metadata.cacheFile st.cacheDir r.SourceProfile)) ∧
    (∀ m st, Metadata.refreshHandler m (Metadata.refreshHandler m st).1 =
        Metadata.refreshHandler m st) := by
  refine ⟨fun m st => rfl, ?_, ?_, ?_⟩
  · intro st c hc
    cases hr : st.role with
    | none => simp [Metadata.refreshHandler, hc, hr]
    | some r =>
      by_cases hcf : 0 < (Metadata.cacheFile st.cacheDir r.SourceProfile).length
      · simp [Metadata.refreshHandler, hc, hr, hcf]
      · simp [Metadata.refreshHandler, hc, hr, hcf]
  · intro st c r hc hr hcf
    simp [Metadata.refreshHandler, hc, hr, hcf]
  · intro m st
    by_cases hcond : m = "POST" ∧ st.cred.isSome = true
    · obtain ⟨hm, hcs⟩ := hcond
      obtain ⟨c, hc⟩ := Option.isSome_iff_exists.mp hcs
      subst hm
      cases hr : st.role with
      | none =>
        simp [Metadata.refreshHandler, hc, hr, Metadata.expireCred_idem]
      | some r =>
        by_cases hcf : 0 < (Metadata.cacheFile st.cacheDir r.SourceProfile).length
        · simp [Metadata.refreshHandler, hc, hr, hcf, Metadata.filter_twice,
            Metadata.expireCred_idem]
        · simp [Metadata.refreshHandler, hc, hr, hcf, Metadata.expireCred_idem]
    · simp [Metadata.refreshHandler, hcond]

/-- Witness for C7: the credential is expired on a POST even with no active
role (no cache path at all), and the cache file of an active role is
removed. -/
theorem C7_refresh_success_expire_idempotent_witness :
    (Metadata.refreshHandler "POST"
        { role := none, cred := some { expired := false }, cacheDir := "cache",
          files := [] }).1.cred =
      some (Metadata.expireCred { expired := false }) ∧
    (Metadata.refreshHandler "POST"
        { role := some
            { SourceProfile := "dev", RoleArn := "arn", MfaSerial := "",
              ExternalID := "", SessionDuration := 0 },
          cred := some { expired := false }, cacheDir := "cache",
          files := ["cache/.aws_session_token_dev"] }).1.files =
      (["cache/.aws_session_token_dev"] : List String).filter
        (fun f => f != Metadata.cacheFile "cache" "dev") :=
  ⟨C7_refresh_success_expire_idempotent.2.1 _ _ rfl,
   C7_refresh_success_expire_idempotent.2.2.1 _ _ _ rfl rfl (by decide)⟩

/-- C8: on POST `/profile` with a successfully resolved configuration,
`updateSession` is skipped exactly when a configuration is active and its
source profile equals the resolved one (the existing session is reused), and
runs exactly when no configuration is active or the source profiles
differ. -/
theorem C8_same_source_profile_reuses_session
    (resolver : String → Except String Metadata.AwsConfig)
    (sessionResult : Except Metadata.SessionError Nat)
    (st : Metadata.ProfileState) (s : String) (p : Metadata.AwsConfig)
    (h : resolver (Metadata.readBody s 4096) = Except.ok p) :
    ((Metadata.profileHandlerPost resolver sessionResult st (some s)).updateSessionCalled
        = false ↔
      ∃ r, st.role = some r ∧ p.SourceProfile = r.SourceProfile) ∧
    ((Metadata.profileHandlerPost resolver sessionResult st (some s)).updateSessionCalled
        = true ↔
      (st.role = none ∨
        ∃ r, st.role = some r ∧ p.SourceProfile ≠ r.SourceProfile)) := by
  have hout : (Metadata.profileHandlerPost resolver sessionResult st
      (some s)).updateSessionCalled = Metadata.needsSessionUpdate st.role p := by
    cases sessionResult <;>
      simp [Metadata.profileHandlerPost, Metadata.getProfileConfig, h]
  rw [hout]
  exact ⟨Metadata.needsSessionUpdate_eq_false_iff st.role p,
    Metadata.needsSessionUpdate_eq_true_iff st.role p⟩

/-- Witness for C8: selecting a profile resolving to the same source profile
as the active configuration does not invoke `updateSession`. -/
theorem C8_same_source_profile_reuses_session_witness :
    ((Metadata.profileHandlerPost
        (fun _ => Except.ok
          { SourceProfile := "dev", RoleArn := "arn2", MfaSerial := "",
            ExternalID := "", SessionDuration := 0 })
        (Except.ok 0)
        { profile := "old",
          role := some
            { SourceProfile := "dev", RoleArn := "arn1", MfaSerial := "",
              ExternalID := "", SessionDuration := 0 },
          sessionGen := 0 }
        (some "p2")).updateSessionCalled = false ↔
      ∃ r, ({ profile := "old",
              role := some
                { SourceProfile := "dev", RoleArn := "arn1", MfaSerial := "",
                  ExternalID := "", SessionDuration := 0 },
              sessionGen := 0 } : Metadata.ProfileState).role = some r ∧
        ({ SourceProfile := "dev", RoleArn := "arn2", MfaSerial := "",
           ExternalID := "", SessionDuration := 0 } : Metadata.AwsConfig).SourceProfile
          = r.SourceProfile) :=
  (C8_same_source_profile_reuses_session _ _ _ _ _ rfl).1

/-- C9: a `/refresh` request that is not a POST, or that arrives with no
active credential object, leaves the whole server state — credential, role,
cache directory and files — unchanged and still answers 200 `success`. -/
theorem C9_refresh_frame (m : String) (st : Metadata.ServerState)
    (h : m ≠ "POST" ∨ st.cred = none) :
    Metadata.refreshHandler m st = (st, ⟨200, "success"⟩) := by
  have hcond : ¬ (m = "POST" ∧ st.cred.isSome = true) := by
    rcases h with h | h
    · exact fun hc => h hc.1
    · intro hc
      rw [h] at hc
      simp at hc
  simp [Metadata.refreshHandler, hcond, Metadata.writeResponse]

/-- Witness for C9: a GET `/refresh` with an active credential changes
nothing. -/
theorem C9_refresh_frame_witness :
    Metadata.refreshHandler "GET"
        { role := none, cred := some { expired := false }, cacheDir := "cache",
          files := ["cache/.aws_session_token_dev"] } =
      ({ role := none, cred := some { expired := false }, cacheDir := "cache",
         files := ["cache/.aws_session_token_dev"] }, ⟨200, "success"⟩) :=
  C9_refresh_frame "GET" _ (Or.inl (by decide))

/-- C10: POST `/profile` stores the request body as the process-wide profile
name before resolution is attempted; when resolution fails the request is
answered 500 without rolling the name back, so a subsequent GET `/profile`
reports the failed profile name. -/
theorem C10_profile_not_rolled_back
    (resolver : String → Except String Metadata.AwsConfig)
    (sessionResult : Except Metadata.SessionError Nat)
    (st : Metadata.ProfileState) (s : String) (err : String)
    (hlen : s.length ≤ 4096)
    (h : resolver s = Except.error err) :
    (Metadata.profileHandlerPost resolver sessionResult st (some s)).response =
      ⟨500, "Error resolving profile config"⟩ ∧
    (Metadata.profileHandlerPost resolver sessionResult st (some s)).state.profile = s ∧
    Metadata.sendProfile
        (Metadata.profileHandlerPost resolver sessionResult st (some s)).state =
      ⟨200, s⟩ := by
  have htake : Metadata.readBody s 4096 = s := by
    show String.mk (s.data.take 4096) = s
    rw [List.take_of_length_le hlen]
  refine ⟨?_, ?_, ?_⟩ <;>
    simp [Metadata.profileHandlerPost, Metadata.getProfileConfig, htake, h,
      Metadata.sendProfile, Metadata.writeResponse]

/-- Witness for C10: a failing resolution of profile `newprof` leaves
`newprof` as the active profile name. -/
theorem C10_profile_not_rolled_back_witness :
    (Metadata.profileHandlerPost (fun _ => Except.error "no such profile")
        (Except.ok 0) { profile := "old", role := none, sessionGen := 0 }
        (some "newprof")).response =
      ⟨500, "Error resolving profile config"⟩ ∧
    (Metadata.profileHandlerPost (fun _ => Except.error "no such profile")
        (Except.ok 0) { profile := "old", role := none, sessionGen := 0 }
        (some "newprof")).state.profile = "newprof" ∧
    Metadata.sendProfile
        (Metadata.profileHandlerPost (fun _ => Except.error "no such profile")
          (Except.ok 0) { profile := "old", role := none, sessionGen := 0 }
          (some "newprof")).state =
      ⟨200, "newprof"⟩ :=
  C10_profile_not_rolled_back _ _ _ _ "no such profile" (by decide) rfl
